import Mathlib

/-!
Verification development for the `spl-escrow` Anchor program
(`programs/spl-escrow/src/lib.rs`).

The program is embedded shallowly:

* Account identities (`Pubkey`) are abstracted as naturals.
* The escrow record and its vault are stored together in a map keyed by the
  PDA seed triple `(seller, offer_mint, request_mint)`; the PDA derivation is
  deterministic and collision-resistant, so keying by the triple is exact, and
  the two `init` constraints of `CreateEscrow` (record and vault created
  together) and the paired closes make the record and its custody balance live
  and die together.
* Fungible-asset holdings are kept per (owner, mint) cell; the SPL token
  program itself is an external collaborator, so its `transfer` is modelled
  from its interface: it fails exactly when the source balance is below the
  amount, and `close_account` on a non-native token account requires a zero
  remaining balance.
* Each instruction is one atomic transaction: the Anchor account validation
  of its `Accounts` struct runs first (deserialization of every account, then
  the declared constraints in field order, with `init` performed at its
  field's position), followed by the handler body; any error aborts the whole
  transaction with no state change.
-/

namespace SplEscrow

/-- Account identities (public keys), abstracted as naturals. -/
abbrev Pubkey := Nat

/-- The `(seller, offer_mint, request_mint)` seed triple of an escrow PDA. -/
abbrev Triple := Pubkey × Pubkey × Pubkey

/-- The `Escrow` account data (lib.rs 322-332). -/
structure Escrow where
  seller : Pubkey
  offer_mint : Pubkey
  request_mint : Pubkey
  offer_amount : Nat
  request_amount : Nat
  escrow_bump : Nat
  vault_bump : Nat
deriving Repr, DecidableEq

/-- A caller-supplied token account, designated by the holding it references:
its owner and its mint. -/
structure TokenRef where
  owner : Pubkey
  mint : Pubkey
deriving Repr, DecidableEq

/-- Errors an instruction can abort with: the program's own `EscrowError`
variants (lib.rs 334-344) plus the environment errors that its account
validation and token-program calls can surface (`init` on an occupied PDA,
insufficient source balance on `transfer`, nonzero balance on
`close_account`, a missing escrow account). -/
inductive EscrowError where
  | Unauthorized
  | InvalidMint
  | InvalidTokenAccountOwner
  | InvalidAmount
  | AlreadyExists
  | InsufficientBalance
  | NonNativeHasBalance
  | AccountNotInitialized
  | ConstraintSeeds
deriving Repr, DecidableEq

/-- The on-chain state the program touches: the escrow record together with
its vault's custody balance, keyed by the PDA seed triple, and the fungible
holdings per (owner, mint). -/
structure EscrowState where
  records : Triple → Option (Escrow × Nat)
  holdings : Pubkey → Pubkey → Nat

/-- Point update of the holdings map at one (owner, mint) cell. -/
def updH (h : Pubkey → Pubkey → Nat) (o m : Pubkey) (v : Nat) :
    Pubkey → Pubkey → Nat :=
  fun o' m' => if o' = o ∧ m' = m then v else h o' m'

/-- Point update of the record map at one seed triple. -/
def updR (r : Triple → Option (Escrow × Nat)) (t : Triple)
    (v : Option (Escrow × Nat)) : Triple → Option (Escrow × Nat) :=
  fun t' => if t' = t then v else r t'

/-- The SPL token program's `transfer` between two caller-designated token
accounts (external collaborator, spec §6): fails exactly when the source
balance is below the amount; a self-transfer succeeds with no net change. -/
def transfer (h : Pubkey → Pubkey → Nat) (src dst : TokenRef) (amount : Nat) :
    Except EscrowError (Pubkey → Pubkey → Nat) :=
  if h src.owner src.mint < amount then .error .InsufficientBalance
  else
    .ok (updH (updH h src.owner src.mint (h src.owner src.mint - amount))
      dst.owner dst.mint
      (updH h src.owner src.mint (h src.owner src.mint - amount)
        dst.owner dst.mint + amount))

/-- Inputs of the `create_escrow` instruction: the signing seller, the two
mint accounts, the seller's offered-asset token account, the two amounts from
the instruction data, and the two environment-derived PDA bumps. -/
structure CreateArgs where
  seller : Pubkey
  offer_mint : Pubkey
  request_mint : Pubkey
  seller_offer_token : TokenRef
  offer_amount : Nat
  request_amount : Nat
  escrow_bump : Nat
  vault_bump : Nat
deriving Repr, DecidableEq

/-- The PDA seed triple of a `create_escrow` call. -/
def CreateArgs.triple (a : CreateArgs) : Triple :=
  (a.seller, a.offer_mint, a.request_mint)

/-- `create_escrow` (lib.rs 16-54) together with the account validation of
`CreateEscrow` (lib.rs 176-217), in execution order: the
`seller_offer_token` mint and owner constraints, the `init` of the escrow
PDA (fails when the triple's address is already occupied), the `init` of the
empty vault PDA, then the handler body: the two positive-amount requires and
the token transfer of `offer_amount` from `seller_offer_token` into the
vault. -/
def create_escrow (σ : EscrowState) (a : CreateArgs) :
    Except EscrowError EscrowState :=
  if a.seller_offer_token.mint ≠ a.offer_mint then .error .InvalidMint
  else if a.seller_offer_token.owner ≠ a.seller then
    .error .InvalidTokenAccountOwner
  else if (σ.records a.triple).isSome then .error .AlreadyExists
  else if a.offer_amount = 0 then .error .InvalidAmount
  else if a.request_amount = 0 then .error .InvalidAmount
  else if σ.holdings a.seller_offer_token.owner a.seller_offer_token.mint
      < a.offer_amount then .error .InsufficientBalance
  else
    .ok
      { records :=
          updR σ.records a.triple
            (some
              (⟨a.seller, a.offer_mint, a.request_mint, a.offer_amount,
                a.request_amount, a.escrow_bump, a.vault_bump⟩,
               a.offer_amount)),
        holdings :=
          updH σ.holdings a.seller_offer_token.owner a.seller_offer_token.mint
            (σ.holdings a.seller_offer_token.owner a.seller_offer_token.mint
              - a.offer_amount) }

/-- Inputs of the `accept_escrow` instruction: the signing buyer, the
supplied seller account, the two supplied mint accounts, the supplied escrow
account (designated by its seed triple), and the three supplied token
accounts. -/
structure AcceptArgs where
  buyer : Pubkey
  seller : Pubkey
  offer_mint : Pubkey
  request_mint : Pubkey
  escrow : Triple
  buyer_request_token : TokenRef
  buyer_offer_token : TokenRef
  seller_request_token : TokenRef
deriving Repr, DecidableEq

/-- The constraint phase of `AcceptEscrow` (lib.rs 219-278) once the escrow
account has deserialized to `esc`: the declared constraints in field order
(`seller` must equal `escrow.seller` else `Unauthorized`, the two supplied
mints must match the record else `InvalidMint`, the escrow seeds, then each
token account's mint and owner checks in declaration order). Returns the
first failing constraint's error, or `none` when all pass. -/
def acceptValidate (a : AcceptArgs) (esc : Escrow) : Option EscrowError :=
  if a.seller ≠ esc.seller then some .Unauthorized
  else if a.offer_mint ≠ esc.offer_mint then some .InvalidMint
  else if a.request_mint ≠ esc.request_mint then some .InvalidMint
  else if a.escrow ≠ (esc.seller, esc.offer_mint, esc.request_mint) then
    some .ConstraintSeeds
  else if a.buyer_request_token.mint ≠ a.request_mint then some .InvalidMint
  else if a.buyer_request_token.owner ≠ a.buyer then
    some .InvalidTokenAccountOwner
  else if a.buyer_offer_token.mint ≠ a.offer_mint then some .InvalidMint
  else if a.buyer_offer_token.owner ≠ a.buyer then
    some .InvalidTokenAccountOwner
  else if a.seller_request_token.mint ≠ a.request_mint then some .InvalidMint
  else if a.seller_request_token.owner ≠ esc.seller then
    some .InvalidTokenAccountOwner
  else none

/-- The handler body of `accept_escrow` (lib.rs 60-121): transfer of
`request_amount` from `buyer_request_token` to `seller_request_token`,
transfer of `offer_amount` from the vault to `buyer_offer_token`, close of
the drained vault (zero remaining balance required, rent to seller), and
the `close = seller` of the record. -/
def acceptBody (σ : EscrowState) (a : AcceptArgs) (esc : Escrow)
    (vault : Nat) : Except EscrowError EscrowState :=
  match transfer σ.holdings a.buyer_request_token a.seller_request_token
      esc.request_amount with
  | .error e => .error e
  | .ok h1 =>
    if vault < esc.offer_amount then .error .InsufficientBalance
    else if vault - esc.offer_amount ≠ 0 then .error .NonNativeHasBalance
    else
      .ok { records := updR σ.records a.escrow none,
            holdings :=
              updH h1 a.buyer_offer_token.owner a.buyer_offer_token.mint
                (h1 a.buyer_offer_token.owner a.buyer_offer_token.mint
                  + esc.offer_amount) }

/-- The part of `accept_escrow` that runs once the supplied escrow account
has deserialized to record `esc` with vault balance `vault`: the remaining
constraint phase, then the handler body. -/
def acceptFound (σ : EscrowState) (a : AcceptArgs) (esc : Escrow)
    (vault : Nat) : Except EscrowError EscrowState :=
  match acceptValidate a esc with
  | some e => .error e
  | none => acceptBody σ a esc vault

/-- `accept_escrow` (lib.rs 60-121) together with the account validation of
`AcceptEscrow` (lib.rs 219-278): deserialization of the supplied escrow
account (an absent account aborts the transaction), then `acceptFound`. -/
def accept_escrow (σ : EscrowState) (a : AcceptArgs) :
    Except EscrowError EscrowState :=
  match σ.records a.escrow with
  | none => .error .AccountNotInitialized
  | some (esc, vault) => acceptFound σ a esc vault

/-- Inputs of the `cancel_escrow` instruction: the signing caller (checked
against the record's seller), the supplied offer mint account, the supplied
escrow account, and the seller's offered-asset token account. -/
structure CancelArgs where
  seller : Pubkey
  offer_mint : Pubkey
  escrow : Triple
  seller_offer_token : TokenRef
deriving Repr, DecidableEq

/-- The constraint phase of `CancelEscrow` (lib.rs 280-320) once the escrow
account has deserialized to `esc`: the signing caller must equal
`escrow.seller` else `Unauthorized`, the supplied offer mint must match the
record else `InvalidMint`, the escrow seeds, then `seller_offer_token`'s
mint and owner checks. Returns the first failing constraint's error, or
`none` when all pass. -/
def cancelValidate (a : CancelArgs) (esc : Escrow) : Option EscrowError :=
  if a.seller ≠ esc.seller then some .Unauthorized
  else if a.offer_mint ≠ esc.offer_mint then some .InvalidMint
  else if a.escrow ≠ (esc.seller, esc.offer_mint, esc.request_mint) then
    some .ConstraintSeeds
  else if a.seller_offer_token.mint ≠ a.offer_mint then some .InvalidMint
  else if a.seller_offer_token.owner ≠ a.seller then
    some .InvalidTokenAccountOwner
  else none

/-- The handler body of `cancel_escrow` (lib.rs 126-173): transfer of
`offer_amount` from the vault back to `seller_offer_token`, close of the
drained vault (zero remaining balance required, rent to seller), and the
`close = seller` of the record. -/
def cancelBody (σ : EscrowState) (a : CancelArgs) (esc : Escrow)
    (vault : Nat) : Except EscrowError EscrowState :=
  if vault < esc.offer_amount then .error .InsufficientBalance
  else if vault - esc.offer_amount ≠ 0 then .error .NonNativeHasBalance
  else
    .ok { records := updR σ.records a.escrow none,
          holdings :=
            updH σ.holdings a.seller_offer_token.owner
              a.seller_offer_token.mint
              (σ.holdings a.seller_offer_token.owner
                a.seller_offer_token.mint + esc.offer_amount) }

/-- The part of `cancel_escrow` that runs once the supplied escrow account
has deserialized to record `esc` with vault balance `vault`: the remaining
constraint phase, then the handler body. -/
def cancelFound (σ : EscrowState) (a : CancelArgs) (esc : Escrow)
    (vault : Nat) : Except EscrowError EscrowState :=
  match cancelValidate a esc with
  | some e => .error e
  | none => cancelBody σ a esc vault

/-- `cancel_escrow` (lib.rs 126-173) together with the account validation of
`CancelEscrow` (lib.rs 280-320): deserialization of the supplied escrow
account (an absent account aborts the transaction), then `cancelFound`. -/
def cancel_escrow (σ : EscrowState) (a : CancelArgs) :
    Except EscrowError EscrowState :=
  match σ.records a.escrow with
  | none => .error .AccountNotInitialized
  | some (esc, vault) => cancelFound σ a esc vault

/-- One request to the program: one of its three instructions. -/
inductive Op where
  | create (a : CreateArgs)
  | accept (a : AcceptArgs)
  | cancel (a : CancelArgs)
deriving Repr, DecidableEq

/-- Dispatch one request. -/
def execOp (σ : EscrowState) : Op → Except EscrowError EscrowState
  | .create a => create_escrow σ a
  | .accept a => accept_escrow σ a
  | .cancel a => cancel_escrow σ a

/-- The environment's atomic execution of one request (spec §5): on error the
whole transaction is rolled back and the pre-state is kept. -/
def step (σ : EscrowState) (op : Op) : EscrowState × Option EscrowError :=
  match execOp σ op with
  | .ok σ' => (σ', none)
  | .error e => (σ, some e)

/-- States reachable from a recordless ledger by runs of the program. -/
inductive Reachable : EscrowState → Prop where
  | base (h : Pubkey → Pubkey → Nat) : Reachable ⟨fun _ => none, h⟩
  | next {σ : EscrowState} (op : Op) : Reachable σ → Reachable (step σ op).1


/-- Test fixture: a record in which seller 1 offers 100 units of asset kind
10 in exchange for 50 units of asset kind 20. -/
def esc1 : Escrow := ⟨1, 10, 20, 100, 50, 0, 0⟩

/-- Test fixture: the seed triple of `esc1`. -/
def t1 : Triple := (1, 10, 20)

/-- Test fixture: a state holding the single active record `esc1` with its
vault full, and every (owner, mint) holding at 60. -/
def σ1 : EscrowState :=
  ⟨fun t => if t = t1 then some (esc1, 100) else none, fun _ _ => 60⟩

/-- Test fixture: a recordless state with every holding at 200. -/
def σ0 : EscrowState := ⟨fun _ => none, fun _ _ => 200⟩

/-- Test fixture: like `σ1` but with every holding at only 40, below the 50
units `esc1` requests. -/
def σpoor : EscrowState :=
  ⟨fun t => if t = t1 then some (esc1, 100) else none, fun _ _ => 40⟩

/-- Test fixture: the create call that produces `esc1`. -/
def c1 : CreateArgs := ⟨1, 10, 20, ⟨1, 10⟩, 100, 50, 0, 0⟩

/-- Test fixture: a well-formed accept of `esc1` by buyer 2. -/
def a2 : AcceptArgs := ⟨2, 1, 10, 20, t1, ⟨2, 20⟩, ⟨2, 10⟩, ⟨1, 20⟩⟩

/-- Test fixture: a well-formed accept of `esc1` in which the buyer is the
recorded seller itself. -/
def aSelf : AcceptArgs := ⟨1, 1, 10, 20, t1, ⟨1, 20⟩, ⟨1, 10⟩, ⟨1, 20⟩⟩

/-- Test fixture: a cancel of `esc1` attempted by identity 2, not the
recorded seller. -/
def k2 : CancelArgs := ⟨2, 10, t1, ⟨2, 10⟩⟩


theorem updH_same (h : Pubkey → Pubkey → Nat) (o m : Pubkey) (v : Nat) :
    updH h o m v o m = v := by simp [updH]

theorem updH_other (h : Pubkey → Pubkey → Nat) (o m : Pubkey) (v : Nat)
    (o' m' : Pubkey) (hne : ¬(o' = o ∧ m' = m)) :
    updH h o m v o' m' = h o' m' := by simp [updH, hne]

theorem updR_same (r : Triple → Option (Escrow × Nat)) (t : Triple)
    (v : Option (Escrow × Nat)) : updR r t v t = v := by simp [updR]

theorem updR_other (r : Triple → Option (Escrow × Nat)) (t : Triple)
    (v : Option (Escrow × Nat)) (t' : Triple) (hne : t' ≠ t) :
    updR r t v t' = r t' := by simp [updR, hne]

theorem accept_found {σ : EscrowState} {a : AcceptArgs} {esc : Escrow}
    {vault : Nat} (hrec : σ.records a.escrow = some (esc, vault)) :
    accept_escrow σ a = acceptFound σ a esc vault := by
  unfold accept_escrow
  rw [hrec]

theorem cancel_found {σ : EscrowState} {a : CancelArgs} {esc : Escrow}
    {vault : Nat} (hrec : σ.records a.escrow = some (esc, vault)) :
    cancel_escrow σ a = cancelFound σ a esc vault := by
  unfold cancel_escrow
  rw [hrec]

theorem accept_ok_found {σ : EscrowState} {a : AcceptArgs} {σ' : EscrowState}
    (h : accept_escrow σ a = .ok σ') :
    ∃ esc vault, σ.records a.escrow = some (esc, vault) ∧
      acceptFound σ a esc vault = .ok σ' := by
  unfold accept_escrow at h
  split at h
  · exact Except.noConfusion h
  · rename_i esc vault heq
    exact ⟨esc, vault, heq, h⟩

theorem cancel_ok_found {σ : EscrowState} {a : CancelArgs} {σ' : EscrowState}
    (h : cancel_escrow σ a = .ok σ') :
    ∃ esc vault, σ.records a.escrow = some (esc, vault) ∧
      cancelFound σ a esc vault = .ok σ' := by
  unfold cancel_escrow at h
  split at h
  · exact Except.noConfusion h
  · rename_i esc vault heq
    exact ⟨esc, vault, heq, h⟩

theorem acceptValidate_none_mp {a : AcceptArgs} {esc : Escrow}
    (hv : acceptValidate a esc = none) :
    a.seller = esc.seller ∧ a.offer_mint = esc.offer_mint ∧
    a.request_mint = esc.request_mint ∧
    a.escrow = (esc.seller, esc.offer_mint, esc.request_mint) ∧
    a.buyer_request_token.mint = a.request_mint ∧
    a.buyer_request_token.owner = a.buyer ∧
    a.buyer_offer_token.mint = a.offer_mint ∧
    a.buyer_offer_token.owner = a.buyer ∧
    a.seller_request_token.mint = a.request_mint ∧
    a.seller_request_token.owner = esc.seller := by
  unfold acceptValidate at hv
  split at hv
  · exact Option.noConfusion hv
  split at hv
  · exact Option.noConfusion hv
  split at hv
  · exact Option.noConfusion hv
  split at hv
  · exact Option.noConfusion hv
  split at hv
  · exact Option.noConfusion hv
  split at hv
  · exact Option.noConfusion hv
  split at hv
  · exact Option.noConfusion hv
  split at hv
  · exact Option.noConfusion hv
  split at hv
  · exact Option.noConfusion hv
  split at hv
  · exact Option.noConfusion hv
  rename_i h1 h2 h3 h4 h5 h6 h7 h8 h9 h10
  exact ⟨not_not.mp h1, not_not.mp h2, not_not.mp h3, not_not.mp h4,
    not_not.mp h5, not_not.mp h6, not_not.mp h7, not_not.mp h8,
    not_not.mp h9, not_not.mp h10⟩

theorem acceptValidate_none_mpr {a : AcceptArgs} {esc : Escrow}
    (h1 : a.seller = esc.seller) (h2 : a.offer_mint = esc.offer_mint)
    (h3 : a.request_mint = esc.request_mint)
    (h4 : a.escrow = (esc.seller, esc.offer_mint, esc.request_mint))
    (h5 : a.buyer_request_token.mint = a.request_mint)
    (h6 : a.buyer_request_token.owner = a.buyer)
    (h7 : a.buyer_offer_token.mint = a.offer_mint)
    (h8 : a.buyer_offer_token.owner = a.buyer)
    (h9 : a.seller_request_token.mint = a.request_mint)
    (h10 : a.seller_request_token.owner = esc.seller) :
    acceptValidate a esc = none := by
  simp [acceptValidate, h1, h2, h3, h4, h5, h6, h7, h8, h9, h10]

theorem cancelValidate_none_mp {a : CancelArgs} {esc : Escrow}
    (hv : cancelValidate a esc = none) :
    a.seller = esc.seller ∧ a.offer_mint = esc.offer_mint ∧
    a.escrow = (esc.seller, esc.offer_mint, esc.request_mint) ∧
    a.seller_offer_token.mint = a.offer_mint ∧
    a.seller_offer_token.owner = a.seller := by
  unfold cancelValidate at hv
  split at hv
  · exact Option.noConfusion hv
  split at hv
  · exact Option.noConfusion hv
  split at hv
  · exact Option.noConfusion hv
  split at hv
  · exact Option.noConfusion hv
  split at hv
  · exact Option.noConfusion hv
  rename_i h1 h2 h3 h4 h5
  exact ⟨not_not.mp h1, not_not.mp h2, not_not.mp h3, not_not.mp h4,
    not_not.mp h5⟩

theorem cancelValidate_none_mpr {a : CancelArgs} {esc : Escrow}
    (h1 : a.seller = esc.seller) (h2 : a.offer_mint = esc.offer_mint)
    (h3 : a.escrow = (esc.seller, esc.offer_mint, esc.request_mint))
    (h4 : a.seller_offer_token.mint = a.offer_mint)
    (h5 : a.seller_offer_token.owner = a.seller) :
    cancelValidate a esc = none := by
  simp [cancelValidate, h1, h2, h3, h4, h5]

theorem create_ok_shape {σ : EscrowState} {a : CreateArgs} {σ' : EscrowState}
    (h : create_escrow σ a = .ok σ') :
    σ.records a.triple = none ∧ 0 < a.offer_amount ∧ 0 < a.request_amount ∧
    σ'.records = updR σ.records a.triple
      (some (⟨a.seller, a.offer_mint, a.request_mint, a.offer_amount,
        a.request_amount, a.escrow_bump, a.vault_bump⟩, a.offer_amount)) := by
  unfold create_escrow at h
  split at h
  · exact Except.noConfusion h
  split at h
  · exact Except.noConfusion h
  split at h
  · exact Except.noConfusion h
  split at h
  · exact Except.noConfusion h
  split at h
  · exact Except.noConfusion h
  split at h
  · exact Except.noConfusion h
  rename_i hmint howner hocc hoa hra hbal
  refine ⟨Option.not_isSome_iff_eq_none.mp hocc, Nat.pos_of_ne_zero hoa,
    Nat.pos_of_ne_zero hra, ?_⟩
  have hσ := (Except.ok.injEq _ _).mp h
  rw [← hσ]

theorem acceptBody_ok_records {σ : EscrowState} {a : AcceptArgs}
    {esc : Escrow} {vault : Nat} {σ' : EscrowState}
    (h : acceptBody σ a esc vault = .ok σ') :
    σ'.records = updR σ.records a.escrow none := by
  unfold acceptBody at h
  split at h
  · exact Except.noConfusion h
  split at h
  · exact Except.noConfusion h
  split at h
  · exact Except.noConfusion h
  have hσ := (Except.ok.injEq _ _).mp h
  rw [← hσ]

theorem acceptFound_ok_records {σ : EscrowState} {a : AcceptArgs}
    {esc : Escrow} {vault : Nat} {σ' : EscrowState}
    (h : acceptFound σ a esc vault = .ok σ') :
    σ'.records = updR σ.records a.escrow none := by
  unfold acceptFound at h
  split at h
  · exact Except.noConfusion h
  · exact acceptBody_ok_records h

theorem cancelBody_ok_records {σ : EscrowState} {a : CancelArgs}
    {esc : Escrow} {vault : Nat} {σ' : EscrowState}
    (h : cancelBody σ a esc vault = .ok σ') :
    σ'.records = updR σ.records a.escrow none := by
  unfold cancelBody at h
  split at h
  · exact Except.noConfusion h
  split at h
  · exact Except.noConfusion h
  have hσ := (Except.ok.injEq _ _).mp h
  rw [← hσ]

theorem cancelFound_ok_records {σ : EscrowState} {a : CancelArgs}
    {esc : Escrow} {vault : Nat} {σ' : EscrowState}
    (h : cancelFound σ a esc vault = .ok σ') :
    σ'.records = updR σ.records a.escrow none := by
  unfold cancelFound at h
  split at h
  · exact Except.noConfusion h
  · exact cancelBody_ok_records h


/-- The record invariant: while a record exists, its custody balance equals
its `offer_amount` and both its amounts are positive. -/
def recordInv (σ : EscrowState) : Prop :=
  ∀ t esc v, σ.records t = some (esc, v) →
    v = esc.offer_amount ∧ 0 < esc.offer_amount ∧ 0 < esc.request_amount

theorem recordInv_step {σ : EscrowState} (op : Op) (h : recordInv σ) :
    recordInv (step σ op).1 := by
  rcases hres : execOp σ op with e | σ'
  · have hs : (step σ op).1 = σ := by simp [step, hres]
    rw [hs]
    exact h
  · have hs : (step σ op).1 = σ' := by simp [step, hres]
    rw [hs]
    cases op with
    | create a =>
      have hc : create_escrow σ a = .ok σ' := hres
      obtain ⟨hnone, hoa, hra, hrecs⟩ := create_ok_shape hc
      intro t esc v hv
      rw [hrecs] at hv
      unfold updR at hv
      split at hv
      · simp only [Option.some.injEq, Prod.mk.injEq] at hv
        obtain ⟨hesc, hval⟩ := hv
        subst hesc
        subst hval
        exact ⟨rfl, hoa, hra⟩
      · exact h t esc v hv
    | accept a =>
      have hc : accept_escrow σ a = .ok σ' := hres
      obtain ⟨esc0, v0, hrec0, hfound⟩ := accept_ok_found hc
      intro t esc v hv
      rw [acceptFound_ok_records hfound] at hv
      unfold updR at hv
      split at hv
      · exact Option.noConfusion hv
      · exact h t esc v hv
    | cancel a =>
      have hc : cancel_escrow σ a = .ok σ' := hres
      obtain ⟨esc0, v0, hrec0, hfound⟩ := cancel_ok_found hc
      intro t esc v hv
      rw [cancelFound_ok_records hfound] at hv
      unfold updR at hv
      split at hv
      · exact Option.noConfusion hv
      · exact h t esc v hv

theorem reachable_recordInv {σ : EscrowState} (h : Reachable σ) :
    recordInv σ := by
  induction h with
  | base h0 =>
    intro t esc v hv
    exact Option.noConfusion hv
  | next op hσ ih => exact recordInv_step op ih

theorem accept_short_buyer {σ : EscrowState} {a : AcceptArgs} {esc : Escrow}
    {v : Nat} (hrec : σ.records a.escrow = some (esc, v))
    (hv : acceptValidate a esc = none)
    (hshort : σ.holdings a.buyer esc.request_mint < esc.request_amount) :
    accept_escrow σ a = .error .InsufficientBalance := by
  obtain ⟨h1, h2, h3, h4, h5, h6, h7, h8, h9, h10⟩ := acceptValidate_none_mp hv
  have hmint : a.buyer_request_token.mint = esc.request_mint := by rw [h5, h3]
  have htr : transfer σ.holdings a.buyer_request_token a.seller_request_token
      esc.request_amount = .error .InsufficientBalance := by
    unfold transfer
    rw [h6, hmint, if_pos hshort]
  rw [accept_found hrec]
  unfold acceptFound
  rw [hv]
  unfold acceptBody
  rw [htr]

/-- C2: for every active escrow record, `cancel_escrow` invoked by a caller
other than the stored seller fails with `Unauthorized` (the first constraint
checked) and leaves the whole state unchanged, whatever other accounts are
supplied; and a cancel can succeed only when the caller equals the stored
seller. -/
theorem cancel_seller_only (σ : EscrowState) (a : CancelArgs) (esc : Escrow)
    (v : Nat) (hrec : σ.records a.escrow = some (esc, v)) :
    (a.seller ≠ esc.seller → step σ (.cancel a) = (σ, some .Unauthorized)) ∧
    (∀ σ', cancel_escrow σ a = .ok σ' → a.seller = esc.seller) := by
  have hfound := cancel_found hrec
  constructor
  · intro hne
    have hval : cancelValidate a esc = some .Unauthorized := by
      unfold cancelValidate
      rw [if_pos hne]
    have hc : cancel_escrow σ a = .error .Unauthorized := by
      rw [hfound]
      unfold cancelFound
      rw [hval]
    simp [step, execOp, hc]
  · intro σ' hok
    by_contra hne
    have hval : cancelValidate a esc = some .Unauthorized := by
      unfold cancelValidate
      rw [if_pos hne]
    rw [hfound] at hok
    unfold cancelFound at hok
    rw [hval] at hok
    exact Except.noConfusion hok

/-- Witness for C2 at a concrete state: identity 2 cancelling the escrow of
seller 1 is rejected with `Unauthorized` and the state is untouched. -/
theorem cancel_seller_only_witness :
    step σ1 (.cancel k2) = (σ1, some .Unauthorized) :=
  (cancel_seller_only σ1 k2 esc1 100 rfl).1 (by decide)

/-- C4: in every reachable state an existing record's custody balance equals
exactly its `offer_amount`; a successful `create_escrow` establishes the
record with custody balance `offer_amount`; after a successful
`accept_escrow` or `cancel_escrow` the record — and with it the custody
account — is gone; and the invariant is preserved by every operation. -/
theorem custody_conservation :
    (∀ σ, Reachable σ → ∀ t esc v, σ.records t = some (esc, v) →
      v = esc.offer_amount) ∧
    (∀ σ a σ', create_escrow σ a = .ok σ' →
      σ'.records a.triple =
        some (⟨a.seller, a.offer_mint, a.request_mint, a.offer_amount,
          a.request_amount, a.escrow_bump, a.vault_bump⟩, a.offer_amount)) ∧
    (∀ σ a σ', accept_escrow σ a = .ok σ' → σ'.records a.escrow = none) ∧
    (∀ σ a σ', cancel_escrow σ a = .ok σ' → σ'.records a.escrow = none) ∧
    (∀ σ op, recordInv σ → recordInv (step σ op).1) := by
  refine ⟨?_, ?_, ?_, ?_, ?_⟩
  · intro σ hr t esc v hv
    exact (reachable_recordInv hr t esc v hv).1
  · intro σ a σ' h
    obtain ⟨hnone, hoa, hra, hrecs⟩ := create_ok_shape h
    rw [hrecs, updR_same]
  · intro σ a σ' h
    obtain ⟨esc, vault, hrec, hfound⟩ := accept_ok_found h
    rw [acceptFound_ok_records hfound, updR_same]
  · intro σ a σ' h
    obtain ⟨esc, vault, hrec, hfound⟩ := cancel_ok_found h
    rw [cancelFound_ok_records hfound, updR_same]
  · intro σ op h
    exact recordInv_step op h

/-- Witness for C4 at a concrete reachable state: after creating `esc1` from
a recordless ledger, the custody balance 100 equals the record's
`offer_amount`. -/
theorem custody_conservation_witness : (100 : Nat) = esc1.offer_amount :=
  custody_conservation.1 (step σ0 (.create c1)).1
    (Reachable.next (.create c1) (Reachable.base (fun _ _ => 200)))
    t1 esc1 100 rfl

/-- C5: an operation that returns an error leaves the state exactly as it
was — the record map, custody balances and all holdings are unchanged; in
particular an accept whose account validations all pass but whose buyer
holds less than `request_amount` of the requested kind fails with
`InsufficientBalance`, the record staying active with its custody balance
unchanged. -/
theorem atomic_rollback :
    (∀ σ op e, (step σ op).2 = some e → (step σ op).1 = σ) ∧
    (∀ σ a esc v, σ.records a.escrow = some (esc, v) →
      acceptValidate a esc = none →
      σ.holdings a.buyer esc.request_mint < esc.request_amount →
      step σ (.accept a) = (σ, some .InsufficientBalance)) := by
  constructor
  · intro σ op e h
    rcases hres : execOp σ op with e' | σ'
    · simp [step, hres]
    · simp [step, hres] at h
  · intro σ a esc v hrec hval hshort
    have hacc := accept_short_buyer hrec hval hshort
    simp [step, execOp, hacc]

/-- Witness for C5: buyer 2 holding only 40 of kind 20 cannot accept the
50-requesting escrow `esc1`; the attempt errors with `InsufficientBalance`
and the state is untouched. -/
theorem atomic_rollback_witness :
    step σpoor (.accept a2) = (σpoor, some .InsufficientBalance) :=
  atomic_rollback.2 σpoor a2 esc1 100 rfl (by decide) (by decide)

/-- C7: the buyer-funding transfer of `accept_escrow` executes before the
custody release: whenever the account validations pass and the buyer holds
less than `request_amount`, the operation aborts with `InsufficientBalance`
and the state — the record included — is untouched, for EVERY custody
balance `w`, so the outcome never depends on the custody side. -/
theorem accept_request_transfer_first (σ : EscrowState) (a : AcceptArgs)
    (esc : Escrow) (hval : acceptValidate a esc = none)
    (hshort : σ.holdings a.buyer esc.request_mint < esc.request_amount) :
    ∀ w, step { records := updR σ.records a.escrow (some (esc, w)),
                holdings := σ.holdings } (.accept a)
      = ({ records := updR σ.records a.escrow (some (esc, w)),
           holdings := σ.holdings }, some .InsufficientBalance) := by
  intro w
  have hrec : (updR σ.records a.escrow (some (esc, w))) a.escrow
      = some (esc, w) := updR_same σ.records a.escrow (some (esc, w))
  have hacc : accept_escrow
      { records := updR σ.records a.escrow (some (esc, w)),
        holdings := σ.holdings } a = .error .InsufficientBalance :=
    accept_short_buyer (v := w) hrec hval hshort
  simp [step, execOp, hacc]

/-- Witness for C7 at a concrete state: even with an empty custody balance,
the short buyer's accept aborts with `InsufficientBalance` — the buyer-side
transfer fails before the custody side is touched. -/
theorem accept_request_transfer_first_witness :
    step { records := updR σpoor.records a2.escrow (some (esc1, 0)),
           holdings := σpoor.holdings } (.accept a2)
      = ({ records := updR σpoor.records a2.escrow (some (esc1, 0)),
           holdings := σpoor.holdings }, some .InsufficientBalance) :=
  accept_request_transfer_first σpoor a2 esc1 (by decide) (by decide) 0


theorem transfer_ok_shape {h : Pubkey → Pubkey → Nat} {src dst : TokenRef}
    {amount : Nat} {h' : Pubkey → Pubkey → Nat}
    (ht : transfer h src dst amount = .ok h') :
    ¬ h src.owner src.mint < amount ∧
    h' = updH (updH h src.owner src.mint (h src.owner src.mint - amount))
      dst.owner dst.mint
      (updH h src.owner src.mint (h src.owner src.mint - amount)
        dst.owner dst.mint + amount) := by
  unfold transfer at ht
  split at ht
  · exact Except.noConfusion ht
  · rename_i hge
    exact ⟨hge, ((Except.ok.injEq _ _).mp ht).symm⟩

theorem acceptBody_ok_shape {σ : EscrowState} {a : AcceptArgs} {esc : Escrow}
    {vault : Nat} {σ' : EscrowState}
    (h : acceptBody σ a esc vault = .ok σ') :
    ∃ h1, transfer σ.holdings a.buyer_request_token a.seller_request_token
        esc.request_amount = .ok h1 ∧
      vault = esc.offer_amount ∧
      σ' = { records := updR σ.records a.escrow none,
             holdings :=
               updH h1 a.buyer_offer_token.owner a.buyer_offer_token.mint
                 (h1 a.buyer_offer_token.owner a.buyer_offer_token.mint
                   + esc.offer_amount) } := by
  unfold acceptBody at h
  split at h
  · exact Except.noConfusion h
  rename_i h1 htr
  split at h
  · exact Except.noConfusion h
  split at h
  · exact Except.noConfusion h
  rename_i hlt hz
  refine ⟨h1, htr, ?_, ((Except.ok.injEq _ _).mp h).symm⟩
  omega


/-- Counterexample to C1 as stated: nothing requires the accepting buyer to
differ from the recorded seller, and when the seller self-accepts `esc1`,
the buyer-to-seller transfer is a self-transfer, so the seller's
requested-asset holding does NOT increase by `request_amount` — the accept
succeeds but the claimed delta fails. -/
theorem accept_exchange_deltas_counterexample :
    ∃ σ', accept_escrow σ1 aSelf = .ok σ' ∧
      σ'.holdings esc1.seller esc1.request_mint
        ≠ σ1.holdings esc1.seller esc1.request_mint + esc1.request_amount := by
  refine ⟨_, rfl, ?_⟩
  decide

/-- C1 (amended): after a successful `accept_escrow` of an active record
whose buyer differs from the recorded seller and whose two asset kinds
differ, the seller's requested-asset holding increases by exactly
`request_amount` and the buyer's offered-asset holding increases by exactly
`offer_amount`, whatever both parties' pre-existing balances are. -/
theorem accept_exchange_deltas (σ σ' : EscrowState) (a : AcceptArgs)
    (esc : Escrow) (v : Nat)
    (hrec : σ.records a.escrow = some (esc, v))
    (hbuyer : a.buyer ≠ esc.seller)
    (hmints : esc.offer_mint ≠ esc.request_mint)
    (hok : accept_escrow σ a = .ok σ') :
    σ'.holdings esc.seller esc.request_mint
      = σ.holdings esc.seller esc.request_mint + esc.request_amount ∧
    σ'.holdings a.buyer esc.offer_mint
      = σ.holdings a.buyer esc.offer_mint + esc.offer_amount := by
  rw [accept_found hrec] at hok
  unfold acceptFound at hok
  cases hcase : acceptValidate a esc with
  | some e =>
    rw [hcase] at hok
    exact Except.noConfusion hok
  | none =>
    rw [hcase] at hok
    obtain ⟨h1, htr, hvault, hσ⟩ := acceptBody_ok_shape hok
    obtain ⟨hq1, hq2, hq3, hq4, hq5, hq6, hq7, hq8, hq9, hq10⟩ :=
      acceptValidate_none_mp hcase
    obtain ⟨hge, hh1⟩ := transfer_ok_shape htr
    subst hσ
    subst hh1
    dsimp only
    simp only [hq5, hq6, hq7, hq8, hq9, hq10, hq2, hq3]
    constructor
    · rw [updH_other _ _ _ _ _ _ (fun hc => hbuyer hc.1.symm),
        updH_same,
        updH_other _ _ _ _ _ _ (fun hc => hbuyer hc.1.symm)]
    · rw [updH_same,
        updH_other _ _ _ _ _ _ (fun hc => hbuyer hc.1),
        updH_other _ _ _ _ _ _ (fun hc => hmints hc.2)]

/-- Witness for the amended C1: buyer 2 accepts `esc1`; seller 1's holding
of kind 20 rises from 60 to 110 (+50) and buyer 2's holding of kind 10
rises from 60 to 160 (+100). -/
theorem accept_exchange_deltas_witness :
    ∃ σ', accept_escrow σ1 a2 = .ok σ' ∧
      σ'.holdings esc1.seller esc1.request_mint
        = σ1.holdings esc1.seller esc1.request_mint + esc1.request_amount ∧
      σ'.holdings a2.buyer esc1.offer_mint
        = σ1.holdings a2.buyer esc1.offer_mint + esc1.offer_amount := by
  refine ⟨_, rfl, ?_⟩
  exact accept_exchange_deltas σ1 _ a2 esc1 100 rfl (by decide) (by decide) rfl

/-- C10: `accept_escrow` imposes no distinctness between buyer and seller —
when the buyer identity equals the recorded seller and the seller holds at
least `request_amount` of the requested kind, the accept succeeds, the
custody's `offer_amount` lands back in the seller's own offered-asset
holding, and the record is closed. -/
theorem accept_self_trade (σ : EscrowState) (a : AcceptArgs) (esc : Escrow)
    (hrec : σ.records a.escrow = some (esc, esc.offer_amount))
    (hval : acceptValidate a esc = none)
    (hbuyer : a.buyer = esc.seller)
    (hbal : esc.request_amount ≤ σ.holdings esc.seller esc.request_mint) :
    ∃ σ', accept_escrow σ a = .ok σ' ∧
      σ'.holdings esc.seller esc.offer_mint
        = σ.holdings esc.seller esc.offer_mint + esc.offer_amount ∧
      σ'.records a.escrow = none := by
  obtain ⟨hq1, hq2, hq3, hq4, hq5, hq6, hq7, hq8, hq9, hq10⟩ :=
    acceptValidate_none_mp hval
  have hacc : accept_escrow σ a = acceptBody σ a esc esc.offer_amount := by
    rw [accept_found hrec]
    unfold acceptFound
    rw [hval]
  rcases hcase : transfer σ.holdings a.buyer_request_token
      a.seller_request_token esc.request_amount with e | h1
  · exfalso
    unfold transfer at hcase
    split at hcase
    · rename_i hlt
      rw [hq6, hq5, hq3, hbuyer] at hlt
      exact absurd hlt (not_lt.mpr hbal)
    · exact Except.noConfusion hcase
  · obtain ⟨hge, hh1⟩ := transfer_ok_shape hcase
    have hok : accept_escrow σ a = .ok
        { records := updR σ.records a.escrow none,
          holdings :=
            updH h1 a.buyer_offer_token.owner a.buyer_offer_token.mint
              (h1 a.buyer_offer_token.owner a.buyer_offer_token.mint
                + esc.offer_amount) } := by
      rw [hacc]
      unfold acceptBody
      rw [hcase]
      simp [Nat.sub_self]
    refine ⟨_, hok, ?_, ?_⟩
    · subst hh1
      dsimp only
      simp only [hq5, hq6, hq7, hq8, hq9, hq10, hq2, hq3, hbuyer]
      by_cases hom : esc.offer_mint = esc.request_mint
      · rw [hom, updH_same, updH_same, updH_same, Nat.sub_add_cancel hbal]
      · rw [updH_same,
          updH_other _ _ _ _ _ _ (fun hc => hom hc.2),
          updH_other _ _ _ _ _ _ (fun hc => hom hc.2)]
    · dsimp only
      rw [updR_same]

/-- Witness for C10: seller 1 self-accepts `esc1` from holdings of 60; the
accept succeeds, seller 1's holding of kind 10 rises by the 100 released
from custody, and the record is gone. -/
theorem accept_self_trade_witness :
    ∃ σ', accept_escrow σ1 aSelf = .ok σ' ∧
      σ'.holdings esc1.seller esc1.offer_mint
        = σ1.holdings esc1.seller esc1.offer_mint + esc1.offer_amount ∧
      σ'.records aSelf.escrow = none :=
  accept_self_trade σ1 aSelf esc1 rfl (by decide) (by decide) (by decide)


/-- Counterexample to C3 as stated: with `esc1` active, a second create for
the very same triple that supplies a token account of the wrong mint fails
with `InvalidMint`, not `AlreadyExists` — the `seller_offer_token`
constraints are declared before the escrow `init`, so they are checked
first. -/
theorem create_uniqueness_counterexample :
    σ1.records (CreateArgs.triple ⟨1, 10, 20, ⟨1, 99⟩, 100, 50, 0, 0⟩)
      = some (esc1, 100) ∧
    create_escrow σ1 ⟨1, 10, 20, ⟨1, 99⟩, 100, 50, 0, 0⟩
      = .error .InvalidMint ∧
    (EscrowError.InvalidMint ≠ EscrowError.AlreadyExists) :=
  ⟨rfl, rfl, by decide⟩

/-- C3 (amended): while a record for a triple is active no create for that
triple can succeed, so two creates with an identical (seller, offer kind,
request kind) triple cannot both succeed; the colliding create fails
precisely with `AlreadyExists` whenever its token-account validations pass;
and after a successful create, a second create for the same triple cannot
succeed. -/
theorem create_uniqueness :
    (∀ σ (a : CreateArgs) r, σ.records a.triple = some r →
      ∀ σ', create_escrow σ a ≠ .ok σ') ∧
    (∀ σ (a : CreateArgs) r, σ.records a.triple = some r →
      a.seller_offer_token.mint = a.offer_mint →
      a.seller_offer_token.owner = a.seller →
      create_escrow σ a = .error .AlreadyExists) ∧
    (∀ σ (a : CreateArgs) σ' (b : CreateArgs) σ'',
      create_escrow σ a = .ok σ' → b.triple = a.triple →
      create_escrow σ' b ≠ .ok σ'') := by
  have hfail : ∀ σ (a : CreateArgs) r, σ.records a.triple = some r →
      ∀ σ', create_escrow σ a ≠ .ok σ' := by
    intro σ a r hr σ' hok
    obtain ⟨hnone, _, _, _⟩ := create_ok_shape hok
    rw [hr] at hnone
    exact Option.noConfusion hnone
  refine ⟨hfail, ?_, ?_⟩
  · intro σ a r hr hmint howner
    unfold create_escrow
    rw [if_neg (not_not_intro hmint), if_neg (not_not_intro howner),
      if_pos (by rw [hr]; rfl)]
  · intro σ a σ' b σ'' hok htr hok2
    obtain ⟨_, _, _, hrecs⟩ := create_ok_shape hok
    have hb : σ'.records b.triple =
        some (⟨a.seller, a.offer_mint, a.request_mint, a.offer_amount,
          a.request_amount, a.escrow_bump, a.vault_bump⟩, a.offer_amount) := by
      rw [htr, hrecs, updR_same]
    exact hfail σ' b _ hb σ'' hok2

/-- Witness for the amended C3: replaying the well-formed create of `esc1`
while it is active fails with `AlreadyExists`. -/
theorem create_uniqueness_witness :
    create_escrow σ1 c1 = .error .AlreadyExists :=
  create_uniqueness.2.1 σ1 c1 (esc1, 100) rfl rfl rfl

/-- Counterexample to C6 as stated: a create with `offer_amount = 0` aimed
at a triple whose record is still active fails with `AlreadyExists`, not
`InvalidAmount` — the `init` collision check in the account-validation
phase runs before the handler body's amount requires. -/
theorem create_invalid_amount_counterexample :
    create_escrow σ1 ⟨1, 10, 20, ⟨1, 10⟩, 0, 50, 0, 0⟩
      = .error .AlreadyExists ∧
    (EscrowError.AlreadyExists ≠ EscrowError.InvalidAmount) :=
  ⟨rfl, by decide⟩

/-- C6 (amended): a create with a zero `offer_amount` or `request_amount`
never succeeds — no record is allocated and the state (so also every
holding) is untouched; it fails precisely with `InvalidAmount` whenever the
account validations pass and no record for the triple is active; and every
record existing in any reachable state has positive `offer_amount` and
`request_amount`. -/
theorem create_invalid_amount :
    (∀ σ (a : CreateArgs), (a.offer_amount = 0 ∨ a.request_amount = 0) →
      ∀ σ', create_escrow σ a ≠ .ok σ') ∧
    (∀ σ (a : CreateArgs), (a.offer_amount = 0 ∨ a.request_amount = 0) →
      (step σ (.create a)).1 = σ) ∧
    (∀ σ (a : CreateArgs), a.seller_offer_token.mint = a.offer_mint →
      a.seller_offer_token.owner = a.seller →
      σ.records a.triple = none →
      (a.offer_amount = 0 ∨ a.request_amount = 0) →
      create_escrow σ a = .error .InvalidAmount) ∧
    (∀ σ, Reachable σ → ∀ t esc v, σ.records t = some (esc, v) →
      0 < esc.offer_amount ∧ 0 < esc.request_amount) := by
  refine ⟨?_, ?_, ?_, ?_⟩
  · intro σ a hz σ' hok
    obtain ⟨_, hoa, hra, _⟩ := create_ok_shape hok
    rcases hz with hz | hz <;> omega
  · intro σ a hz
    rcases hres : execOp σ (.create a) with e | σ'
    · simp [step, hres]
    · exfalso
      obtain ⟨_, hoa, hra, _⟩ :=
        create_ok_shape (hres : create_escrow σ a = .ok σ')
      rcases hz with hz | hz <;> omega
  · intro σ a hmint howner hnone hz
    unfold create_escrow
    rw [if_neg (not_not_intro hmint), if_neg (not_not_intro howner),
      if_neg (by simp [hnone])]
    by_cases hoa : a.offer_amount = 0
    · rw [if_pos hoa]
    · rw [if_neg hoa, if_pos (hz.resolve_left hoa)]
  · intro σ hr t esc v hv
    exact (reachable_recordInv hr t esc v hv).2

/-- Witness for the amended C6: on a recordless ledger, a well-formed create
with `offer_amount = 0` fails with `InvalidAmount`. -/
theorem create_invalid_amount_witness :
    create_escrow σ0 ⟨1, 10, 20, ⟨1, 10⟩, 0, 50, 0, 0⟩
      = .error .InvalidAmount :=
  create_invalid_amount.2.2.1 σ0 ⟨1, 10, 20, ⟨1, 10⟩, 0, 50, 0, 0⟩
    rfl rfl rfl (Or.inl rfl)


theorem accept_none {σ : EscrowState} {a : AcceptArgs}
    (h : σ.records a.escrow = none) :
    accept_escrow σ a = .error .AccountNotInitialized := by
  unfold accept_escrow
  rw [h]

theorem acceptValidate_unauthorized {a : AcceptArgs} {esc : Escrow}
    (h : acceptValidate a esc = some .Unauthorized) : a.seller ≠ esc.seller := by
  unfold acceptValidate at h
  split at h
  · rename_i hne
    exact hne
  split at h
  · simp at h
  split at h
  · simp at h
  split at h
  · simp at h
  split at h
  · simp at h
  split at h
  · simp at h
  split at h
  · simp at h
  split at h
  · simp at h
  split at h
  · simp at h
  split at h
  · simp at h
  exact Option.noConfusion h

theorem acceptBody_errors {σ : EscrowState} {a : AcceptArgs} {esc : Escrow}
    {vault : Nat} {e : EscrowError}
    (h : acceptBody σ a esc vault = .error e) :
    e = .InsufficientBalance ∨ e = .NonNativeHasBalance := by
  unfold acceptBody at h
  split at h
  · rename_i e' htr
    have he : e' = e := (Except.error.injEq _ _).mp h
    subst he
    unfold transfer at htr
    split at htr
    · exact Or.inl ((Except.error.injEq _ _).mp htr).symm
    · exact Except.noConfusion htr
  split at h
  · exact Or.inl ((Except.error.injEq _ _).mp h).symm
  split at h
  · exact Or.inr ((Except.error.injEq _ _).mp h).symm
  · exact Except.noConfusion h

/-- Counterexample to C8 as stated: `AcceptEscrow` checks the supplied
seller account against `escrow.seller` and rejects a mismatch with
`Unauthorized`, so accept CAN fail with `Unauthorized`: here the caller
supplies account 3 as the seller while `esc1` records seller 1. -/
theorem accept_permissionless_counterexample :
    accept_escrow σ1 ⟨2, 3, 10, 20, t1, ⟨2, 20⟩, ⟨2, 10⟩, ⟨1, 20⟩⟩
      = .error .Unauthorized := rfl

/-- C8 (amended): the only source of `Unauthorized` in `accept_escrow` is a
supplied seller account differing from the record's stored seller — the
caller's own identity is never checked, so with a matching seller reference
the result is never `Unauthorized`, and any holder of at least
`request_amount` of the requested kind completes the trade when the
supplied accounts match the record. -/
theorem accept_permissionless (σ : EscrowState) (a : AcceptArgs) :
    (accept_escrow σ a = .error .Unauthorized →
      ∃ esc v, σ.records a.escrow = some (esc, v) ∧ a.seller ≠ esc.seller) ∧
    (∀ esc, σ.records a.escrow = some (esc, esc.offer_amount) →
      acceptValidate a esc = none →
      esc.request_amount ≤ σ.holdings a.buyer esc.request_mint →
      ∃ σ', accept_escrow σ a = .ok σ') := by
  constructor
  · intro herr
    rcases hcase : σ.records a.escrow with _ | ⟨esc, vault⟩
    · rw [accept_none hcase] at herr
      simp at herr
    · rw [accept_found hcase] at herr
      refine ⟨esc, vault, rfl, ?_⟩
      unfold acceptFound at herr
      rcases hval : acceptValidate a esc with _ | e0
      · rw [hval] at herr
        rcases acceptBody_errors herr with hbe | hbe <;>
          exact EscrowError.noConfusion hbe
      · rw [hval] at herr
        have he0 : e0 = .Unauthorized := (Except.error.injEq _ _).mp herr
        subst he0
        exact acceptValidate_unauthorized hval
  · intro esc hrec hval hbal
    obtain ⟨hq1, hq2, hq3, hq4, hq5, hq6, hq7, hq8, hq9, hq10⟩ :=
      acceptValidate_none_mp hval
    have hacc : accept_escrow σ a = acceptBody σ a esc esc.offer_amount := by
      rw [accept_found hrec]
      unfold acceptFound
      rw [hval]
    rcases hcase : transfer σ.holdings a.buyer_request_token
        a.seller_request_token esc.request_amount with e | h1
    · exfalso
      unfold transfer at hcase
      split at hcase
      · rename_i hlt
        rw [hq6, hq5, hq3] at hlt
        exact absurd hlt (not_lt.mpr hbal)
      · exact Except.noConfusion hcase
    · have hok : accept_escrow σ a = .ok
          { records := updR σ.records a.escrow none,
            holdings :=
              updH h1 a.buyer_offer_token.owner a.buyer_offer_token.mint
                (h1 a.buyer_offer_token.owner a.buyer_offer_token.mint
                  + esc.offer_amount) } := by
        rw [hacc]
        unfold acceptBody
        rw [hcase]
        simp [Nat.sub_self]
      exact ⟨_, hok⟩

/-- Witness for the amended C8: buyer 2, a stranger to `esc1`, accepts it
successfully by supplying the matching accounts. -/
theorem accept_permissionless_witness :
    ∃ σ', accept_escrow σ1 a2 = .ok σ' :=
  (accept_permissionless σ1 a2).2 esc1 rfl (by decide) (by decide)

/-- Counterexample to C9 as stated: a create whose supplied token account
has BOTH a foreign owner and a wrong mint fails with `InvalidMint`, not
`InvalidTokenAccountOwner` — within each account the mint constraint is
declared, and therefore checked, before the owner constraint. -/
theorem token_owner_checks_counterexample :
    (CreateArgs.seller_offer_token ⟨1, 10, 20, ⟨5, 99⟩, 100, 50, 0, 0⟩).owner
      ≠ (1 : Pubkey) ∧
    create_escrow σ0 ⟨1, 10, 20, ⟨5, 99⟩, 100, 50, 0, 0⟩
      = .error .InvalidMint ∧
    (EscrowError.InvalidMint ≠ EscrowError.InvalidTokenAccountOwner) :=
  ⟨by decide, rfl, by decide⟩

/-- C9 (amended): whenever a supplied token account's mint matches the
required kind and every validation declared before it passes, an owner that
does not match the required party aborts the operation with the distinct
error `InvalidTokenAccountOwner` — separate from `Unauthorized` and
`InvalidMint` — and the state is left unchanged. The conjuncts cover
`seller_offer_token` on create, the three token accounts on accept, and
`seller_offer_token` on cancel. -/
theorem token_owner_checks :
    (∀ σ (a : CreateArgs), a.seller_offer_token.mint = a.offer_mint →
      a.seller_offer_token.owner ≠ a.seller →
      step σ (.create a) = (σ, some .InvalidTokenAccountOwner)) ∧
    (∀ σ (a : AcceptArgs) esc v, σ.records a.escrow = some (esc, v) →
      a.seller = esc.seller → a.offer_mint = esc.offer_mint →
      a.request_mint = esc.request_mint →
      a.escrow = (esc.seller, esc.offer_mint, esc.request_mint) →
      a.buyer_request_token.mint = a.request_mint →
      a.buyer_request_token.owner ≠ a.buyer →
      step σ (.accept a) = (σ, some .InvalidTokenAccountOwner)) ∧
    (∀ σ (a : AcceptArgs) esc v, σ.records a.escrow = some (esc, v) →
      a.seller = esc.seller → a.offer_mint = esc.offer_mint →
      a.request_mint = esc.request_mint →
      a.escrow = (esc.seller, esc.offer_mint, esc.request_mint) →
      a.buyer_request_token.mint = a.request_mint →
      a.buyer_request_token.owner = a.buyer →
      a.buyer_offer_token.mint = a.offer_mint →
      a.buyer_offer_token.owner ≠ a.buyer →
      step σ (.accept a) = (σ, some .InvalidTokenAccountOwner)) ∧
    (∀ σ (a : AcceptArgs) esc v, σ.records a.escrow = some (esc, v) →
      a.seller = esc.seller → a.offer_mint = esc.offer_mint →
      a.request_mint = esc.request_mint →
      a.escrow = (esc.seller, esc.offer_mint, esc.request_mint) →
      a.buyer_request_token.mint = a.request_mint →
      a.buyer_request_token.owner = a.buyer →
      a.buyer_offer_token.mint = a.offer_mint →
      a.buyer_offer_token.owner = a.buyer →
      a.seller_request_token.mint = a.request_mint →
      a.seller_request_token.owner ≠ esc.seller →
      step σ (.accept a) = (σ, some .InvalidTokenAccountOwner)) ∧
    (∀ σ (a : CancelArgs) esc v, σ.records a.escrow = some (esc, v) →
      a.seller = esc.seller → a.offer_mint = esc.offer_mint →
      a.escrow = (esc.seller, esc.offer_mint, esc.request_mint) →
      a.seller_offer_token.mint = a.offer_mint →
      a.seller_offer_token.owner ≠ a.seller →
      step σ (.cancel a) = (σ, some .InvalidTokenAccountOwner)) ∧
    ((EscrowError.InvalidTokenAccountOwner ≠ EscrowError.Unauthorized) ∧
     (EscrowError.InvalidTokenAccountOwner ≠ EscrowError.InvalidMint)) := by
  refine ⟨?_, ?_, ?_, ?_, ?_, by decide, by decide⟩
  · intro σ a hmint howner
    have hc : create_escrow σ a = .error .InvalidTokenAccountOwner := by
      unfold create_escrow
      rw [if_neg (not_not_intro hmint), if_pos howner]
    simp [step, execOp, hc]
  · intro σ a esc v hrec h1 h2 h3 h4 h5 hne
    have hval : acceptValidate a esc = some .InvalidTokenAccountOwner := by
      unfold acceptValidate
      rw [if_neg (not_not_intro h1), if_neg (not_not_intro h2),
        if_neg (not_not_intro h3), if_neg (not_not_intro h4),
        if_neg (not_not_intro h5), if_pos hne]
    have hc : accept_escrow σ a = .error .InvalidTokenAccountOwner := by
      rw [accept_found hrec]
      unfold acceptFound
      rw [hval]
    simp [step, execOp, hc]
  · intro σ a esc v hrec h1 h2 h3 h4 h5 h6 h7 hne
    have hval : acceptValidate a esc = some .InvalidTokenAccountOwner := by
      unfold acceptValidate
      rw [if_neg (not_not_intro h1), if_neg (not_not_intro h2),
        if_neg (not_not_intro h3), if_neg (not_not_intro h4),
        if_neg (not_not_intro h5), if_neg (not_not_intro h6),
        if_neg (not_not_intro h7), if_pos hne]
    have hc : accept_escrow σ a = .error .InvalidTokenAccountOwner := by
      rw [accept_found hrec]
      unfold acceptFound
      rw [hval]
    simp [step, execOp, hc]
  · intro σ a esc v hrec h1 h2 h3 h4 h5 h6 h7 h8 h9 hne
    have hval : acceptValidate a esc = some .InvalidTokenAccountOwner := by
      unfold acceptValidate
      rw [if_neg (not_not_intro h1), if_neg (not_not_intro h2),
        if_neg (not_not_intro h3), if_neg (not_not_intro h4),
        if_neg (not_not_intro h5), if_neg (not_not_intro h6),
        if_neg (not_not_intro h7), if_neg (not_not_intro h8),
        if_neg (not_not_intro h9), if_pos hne]
    have hc : accept_escrow σ a = .error .InvalidTokenAccountOwner := by
      rw [accept_found hrec]
      unfold acceptFound
      rw [hval]
    simp [step, execOp, hc]
  · intro σ a esc v hrec h1 h2 h3 h4 hne
    have hval : cancelValidate a esc = some .InvalidTokenAccountOwner := by
      unfold cancelValidate
      rw [if_neg (not_not_intro h1), if_neg (not_not_intro h2),
        if_neg (not_not_intro h3), if_neg (not_not_intro h4), if_pos hne]
    have hc : cancel_escrow σ a = .error .InvalidTokenAccountOwner := by
      rw [cancel_found hrec]
      unfold cancelFound
      rw [hval]
    simp [step, execOp, hc]

/-- Witness for the amended C9: a create whose token account carries the
right mint but a foreign owner is rejected with `InvalidTokenAccountOwner`
and the state is untouched. -/
theorem token_owner_checks_witness :
    step σ0 (.create ⟨1, 10, 20, ⟨5, 10⟩, 100, 50, 0, 0⟩)
      = (σ0, some .InvalidTokenAccountOwner) :=
  token_owner_checks.1 σ0 ⟨1, 10, 20, ⟨5, 10⟩, 100, 50, 0, 0⟩ rfl (by decide)

end SplEscrow
